import Mathlib

/-!
Shallow embedding of the `rile` editor core (buffer, commands, event loop,
key parsing/formatting, modeline) and proofs of the specification's
quantified properties against it.

Lines are modelled as `List Char` (the source stores UTF-8 `String`s and
indexes columns by byte; all properties below live in the ASCII fragment,
where byte indices and character indices coincide, and multi-byte column
arithmetic is declared out of scope by the specification).
-/

namespace Rile

/-- A line of text: no newline terminator. Mirrors the `String` elements of
`Buffer::lines` in `src/buffer.rs`. -/
abbrev Line := List Char

/-- Mirrors `Cursor` in `src/buffer.rs`: a `(line, column)` pair. -/
structure Cursor where
  line : Nat
  column : Nat
deriving DecidableEq, Repr

/-- Mirrors `GoalColumn` in `src/context.rs`. -/
structure GoalColumn where
  column : Option Nat
  to_preserve : Bool
deriving DecidableEq, Repr

/-- Result of a command handler: `Ok(())` or `Err(())` in `src/commands.rs`. -/
inductive CmdRes where
  | ok : CmdRes
  | err : CmdRes
deriving DecidableEq, Repr

/-- Mirrors `Buffer` in `src/buffer.rs` (the keymap and highlight fields play
no role in the verified operations and are omitted). -/
structure Buffer where
  lines : List Line
  cursor : Cursor
  filename : Option String
deriving DecidableEq, Repr

namespace Buffer

/-- Mirrors `Buffer::new`. -/
def new : Buffer :=
  { lines := [[]], cursor := ⟨0, 0⟩, filename := none }

/-- Mirrors `Buffer::set`: split the content on `'\n'` (the Rust code uses
`str::split('\n')`, which always yields a non-empty sequence and keeps an
empty trailing element) and reset the cursor. -/
def set (b : Buffer) (str : List Char) : Buffer :=
  { b with lines := str.splitOn '\n', cursor := ⟨0, 0⟩ }

/-- Mirrors `Buffer::from_string`. -/
def from_string (str : List Char) : Buffer :=
  Buffer.set Buffer.new str

/-- Mirrors `Buffer::to_string`: join the lines with `'\n'`. -/
def to_string (b : Buffer) : List Char :=
  List.intercalate ['\n'] b.lines

/-- Mirrors `Buffer::lines_count`. -/
def lines_count (b : Buffer) : Nat :=
  b.lines.length

/-- Mirrors `Buffer::get_line_unchecked` (callers maintain the bound, so the
default value of `getD` is never consulted under the cursor invariant). -/
def get_line_unchecked (b : Buffer) (nth : Nat) : Line :=
  b.lines.getD nth []

end Buffer

/-- The slice of the editor state (`Context` in `src/context.rs`) the verified
operations touch. `minibuf` is the text of the minibuffer (a distinct buffer
in the source, used for messages), `window_lines` the text height of the
current window's region, `scroll_line` the current window's scroll origin,
and `event_result` the event loop's completion slot. -/
structure EditorState where
  buffer : Buffer
  goal : GoalColumn
  scroll_line : Nat
  window_lines : Nat
  minibuf : String
  event_result : Option CmdRes
deriving DecidableEq, Repr

/-- Current line of the current buffer. -/
def curLine (s : EditorState) : Line :=
  s.buffer.get_line_unchecked s.buffer.cursor.line

/-- Line count of the current buffer. -/
def linesCount (s : EditorState) : Nat :=
  s.buffer.lines_count

/-- Mirrors `window::message`: store a message in the minibuffer. -/
def message (s : EditorState) (m : String) : EditorState :=
  { s with minibuf := m }

/-- Replace line `n` of the current buffer (a `lines[n] = v` store). -/
def setLine (s : EditorState) (n : Nat) (l : Line) : EditorState :=
  { s with buffer := { s.buffer with lines := s.buffer.lines.set n l } }

/-- Move the cursor of the current buffer. -/
def setCursor (s : EditorState) (line column : Nat) : EditorState :=
  { s with buffer := { s.buffer with cursor := ⟨line, column⟩ } }

/-- Mirrors `Iterator::position` on the characters of a line. -/
def position (p : Char → Bool) : Line → Option Nat
  | [] => none
  | c :: rest => if p c then some 0 else (position p rest).map (· + 1)

/-- Mirrors `char::is_whitespace` (the Unicode `White_Space` property). -/
def isRustWhitespace (c : Char) : Bool :=
  decide ((0x9 ≤ c.toNat ∧ c.toNat ≤ 0xD) ∨ c.toNat = 0x20 ∨ c.toNat = 0x85 ∨
    c.toNat = 0xA0 ∨ c.toNat = 0x1680 ∨ (0x2000 ≤ c.toNat ∧ c.toNat ≤ 0x200A) ∨
    c.toNat = 0x2028 ∨ c.toNat = 0x2029 ∨ c.toNat = 0x202F ∨ c.toNat = 0x205F ∨
    c.toNat = 0x3000)

/-- Mirrors `get_line_indentation` in `src/commands.rs`:
`line.chars().position(|ch| !ch.is_whitespace()).unwrap_or(0)`. -/
def get_line_indentation (line : Line) : Nat :=
  (position (fun ch => !(isRustWhitespace ch)) line).getD 0

/-- Mirrors `commands::move_beginning_of_line`. -/
def move_beginning_of_line (s : EditorState) : EditorState × CmdRes :=
  let indentation := get_line_indentation (curLine s)
  let col := if s.buffer.cursor.column ≤ indentation then 0 else indentation
  (setCursor s s.buffer.cursor.line col, .ok)

/-- Mirrors `commands::move_end_of_line`. -/
def move_end_of_line (s : EditorState) : EditorState × CmdRes :=
  (setCursor s s.buffer.cursor.line (curLine s).length, .ok)

/-- Mirrors `get_or_set_gaol_column` in `src/commands.rs` (source spelling
kept): set `to_preserve` and return the goal column, initializing it from the
current column when unset. -/
def get_or_set_gaol_column (cursor : Cursor) (g : GoalColumn) : Nat × GoalColumn :=
  let col := g.column.getD cursor.column
  (col, { column := some col, to_preserve := true })

/-- Mirrors `commands::next_line`. -/
def next_line (s : EditorState) : EditorState × CmdRes :=
  if s.buffer.cursor.line < linesCount s - 1 then
    let r := get_or_set_gaol_column s.buffer.cursor s.goal
    let s1 := { s with goal := r.2 }
    let line := s1.buffer.cursor.line + 1
    let col := min (s1.buffer.get_line_unchecked line).length r.1
    (setCursor s1 line col, .ok)
  else
    (message s "End of buffer", .err)

/-- Mirrors `commands::previous_line`. -/
def previous_line (s : EditorState) : EditorState × CmdRes :=
  if 0 < s.buffer.cursor.line then
    let r := get_or_set_gaol_column s.buffer.cursor s.goal
    let s1 := { s with goal := r.2 }
    let line := s1.buffer.cursor.line - 1
    let col := min (s1.buffer.get_line_unchecked line).length r.1
    (setCursor s1 line col, .ok)
  else
    (message s "Beginning of buffer", .err)

/-- Mirrors `commands::forward_char`. Note the source zeroes the column
before calling `next_line`, so the zeroing survives even when `next_line`
fails at the last line. -/
def forward_char (s : EditorState) : EditorState × CmdRes :=
  if s.buffer.cursor.column < (curLine s).length then
    (setCursor s s.buffer.cursor.line (s.buffer.cursor.column + 1), .ok)
  else
    next_line (setCursor s s.buffer.cursor.line 0)

/-- Mirrors `commands::backward_char` (the `?` on `previous_line` propagates
its failure before `move_end_of_line` runs). -/
def backward_char (s : EditorState) : EditorState × CmdRes :=
  if 0 < s.buffer.cursor.column then
    (setCursor s s.buffer.cursor.line (s.buffer.cursor.column - 1), .ok)
  else
    match previous_line s with
    | (s1, .err) => (s1, .err)
    | (s1, .ok) => move_end_of_line s1

/-- Mirrors `commands::insert_char` (no `Result` in the source). -/
def insert_char (s : EditorState) (ch : Char) : EditorState :=
  let idx := s.buffer.cursor.column
  let s1 := setLine s s.buffer.cursor.line ((curLine s).insertIdx idx ch)
  setCursor s1 s1.buffer.cursor.line (s1.buffer.cursor.column + 1)

/-- Modelled from the spec: `Buffer::remove_char_at` is called by
`delete_backward_char` but its definition is absent from the sources; the
spec says "`remove_char_at(line, col)`: byte-indexed single-character
removal". -/
def remove_char_at (s : EditorState) (line col : Nat) : EditorState :=
  setLine s line ((s.buffer.get_line_unchecked line).eraseIdx col)

/-- Mirrors `commands::delete_backward_char`. -/
def delete_backward_char (s : EditorState) : EditorState × CmdRes :=
  if 0 < s.buffer.cursor.column then
    let s1 := setCursor s s.buffer.cursor.line (s.buffer.cursor.column - 1)
    (remove_char_at s1 s1.buffer.cursor.line s1.buffer.cursor.column, .ok)
  else if 0 < s.buffer.cursor.line then
    let line := s.buffer.get_line_unchecked s.buffer.cursor.line
    let s1 := { s with buffer :=
      { s.buffer with lines := s.buffer.lines.eraseIdx s.buffer.cursor.line } }
    let prev := s1.buffer.get_line_unchecked (s.buffer.cursor.line - 1)
    let s2 := setLine s1 (s.buffer.cursor.line - 1) (prev ++ line)
    (setCursor s2 (s.buffer.cursor.line - 1) prev.length, .ok)
  else
    (s, .ok)

/-- Mirrors `commands::delete_char`: `forward_char` then
`delete_backward_char`, each behind `?`. -/
def delete_char (s : EditorState) : EditorState × CmdRes :=
  match forward_char s with
  | (s1, .err) => (s1, .err)
  | (s1, .ok) => delete_backward_char s1

/-- Mirrors `commands::kill_line`. -/
def kill_line (s : EditorState) : EditorState × CmdRes :=
  let l := curLine s
  if s.buffer.cursor.column = l.length then
    if s.buffer.cursor.line < linesCount s - 1 then
      delete_char s
    else
      (s, .ok)
  else
    (setLine s s.buffer.cursor.line (l.take s.buffer.cursor.column), .ok)

/-- Mirrors `commands::newline`: split the current line at the column,
insert the tail as a new line below, and move to its start. -/
def newline (s : EditorState) : EditorState × CmdRes :=
  let l := curLine s
  let s1 := setLine s s.buffer.cursor.line (l.take s.buffer.cursor.column)
  let s2 := { s1 with buffer := { s1.buffer with
    lines := s1.buffer.lines.insertIdx (s.buffer.cursor.line + 1)
      (l.drop s.buffer.cursor.column) } }
  (setCursor s2 (s.buffer.cursor.line + 1) 0, .ok)

/-- Mirrors `commands::indent_line`. -/
def indent_line (s : EditorState) : EditorState × CmdRes :=
  let indent := get_line_indentation (curLine s)
  if s.buffer.cursor.column < indent then
    (setCursor s s.buffer.cursor.line indent, .ok)
  else
    (s, .ok)

/-- Mirrors `commands::save_buffer`; the file-system outcome of
`Buffer::save` is abstracted by the `ioOk` flag. -/
def save_buffer (s : EditorState) (ioOk : Bool) : EditorState × CmdRes :=
  match s.buffer.filename with
  | some f =>
    if ioOk then (message s ("Wrote " ++ f), .ok)
    else (message s "Could not save file", .err)
  | none => (message s "No file", .err)

/-- Mirrors `CONTEXT_LINES` in `src/commands.rs`. -/
def CONTEXT_LINES : Nat := 2

/-- Mirrors `commands::next_screen`. `window_lines` is the text height of the
current window's region, computed by the source at entry. -/
def next_screen (s : EditorState) : EditorState × CmdRes :=
  let offset := s.window_lines - 1 - CONTEXT_LINES
  let target := s.scroll_line + offset
  if target < linesCount s then
    ({ setCursor s target s.buffer.cursor.column with scroll_line := target }, .ok)
  else
    (message s "End of buffer", .err)

/-- Mirrors `commands::previous_screen` (`checked_sub` falling back to 0 is
Nat subtraction). -/
def previous_screen (s : EditorState) : EditorState × CmdRes :=
  if s.scroll_line = 0 then
    (message s "Beginning of buffer", .err)
  else
    let offset := s.window_lines - 1 - CONTEXT_LINES
    let s1 := setCursor s (s.scroll_line + CONTEXT_LINES) s.buffer.cursor.column
    ({ s1 with scroll_line := s.scroll_line - offset }, .ok)

/-- Mirrors `commands::beginning_of_buffer`. -/
def beginning_of_buffer (s : EditorState) : EditorState × CmdRes :=
  (setCursor s 0 0, .ok)

/-- Mirrors `commands::end_of_buffer`. -/
def end_of_buffer (s : EditorState) : EditorState × CmdRes :=
  let linenum := linesCount s - 1
  (setCursor s linenum (s.buffer.get_line_unchecked linenum).length, .ok)

/-- Mirrors `commands::kill_rile`: complete the event loop with `Ok`. -/
def kill_rile (s : EditorState) : EditorState × CmdRes :=
  ({ s with event_result := some .ok }, .ok)

/-- Mirrors `commands::keyboard_quit` (the screen flash is display-only):
message "Quit" and complete the event loop with `Err`; the command itself
returns `Ok`. -/
def keyboard_quit (s : EditorState) : EditorState × CmdRes :=
  ({ message s "Quit" with event_result := some .err }, .ok)

/-- Mirrors `minibuffer::minibuffer_complete`. -/
def minibuffer_complete (s : EditorState) : EditorState × CmdRes :=
  ({ s with event_result := some .ok }, .ok)

/-- The command set of `src/commands.rs` (plus `minibuffer_complete`);
`isearch_forward` runs a nested interactive prompt and has no state-machine
semantics of its own. -/
inductive Cmd where
  | move_beginning_of_line | move_end_of_line | forward_char | backward_char
  | next_line | previous_line | insert_char (ch : Char) | delete_char
  | delete_backward_char | kill_line | newline | indent_line
  | save_buffer (ioOk : Bool) | next_screen | previous_screen
  | beginning_of_buffer | end_of_buffer | kill_rile | keyboard_quit
  | minibuffer_complete
deriving DecidableEq, Repr

/-- Dispatch a command name to its handler. -/
def runCmd : Cmd → EditorState → EditorState × CmdRes
  | .move_beginning_of_line, s => move_beginning_of_line s
  | .move_end_of_line, s => move_end_of_line s
  | .forward_char, s => forward_char s
  | .backward_char, s => backward_char s
  | .next_line, s => next_line s
  | .previous_line, s => previous_line s
  | .insert_char ch, s => (insert_char s ch, .ok)
  | .delete_char, s => delete_char s
  | .delete_backward_char, s => delete_backward_char s
  | .kill_line, s => kill_line s
  | .newline, s => newline s
  | .indent_line, s => indent_line s
  | .save_buffer ioOk, s => save_buffer s ioOk
  | .next_screen, s => next_screen s
  | .previous_screen, s => previous_screen s
  | .beginning_of_buffer, s => beginning_of_buffer s
  | .end_of_buffer, s => end_of_buffer s
  | .kill_rile, s => kill_rile s
  | .keyboard_quit, s => keyboard_quit s
  | .minibuffer_complete, s => minibuffer_complete s

/-- Mirrors `window::adjust_scroll`: pull the scroll origin up to the cursor
when the cursor is above the viewport, then (reading the updated origin, as
the source does through the `Cell`) push it down when the cursor is below the
last visible line. -/
def adjust_scroll (s : EditorState) : EditorState :=
  let s1 := if s.buffer.cursor.line < s.scroll_line then
    { s with scroll_line := s.buffer.cursor.line }
  else s
  let last_visible := s1.scroll_line + s1.window_lines - 1
  if s1.buffer.cursor.line > last_visible then
    { s1 with scroll_line := s1.buffer.cursor.line - s1.window_lines + 1 }
  else s1

/-- One iteration of `event_loop` in `src/event_loop.rs`, executing command
`c`, with the minibuffer not focused: reset `to_preserve`, truncate the
minibuffer, run the command, clear the goal column unless the command
preserved it, and adjust the scroll. -/
def loop_iteration (s : EditorState) (c : Cmd) : EditorState :=
  let s0 := { s with goal := { s.goal with to_preserve := false }, minibuf := "" }
  let s1 := (runCmd c s0).1
  let s2 := if s1.goal.to_preserve then s1
    else { s1 with goal := { s1.goal with column := none } }
  adjust_scroll s2

/-- A vertical motion: `next_line` or `previous_line`. -/
inductive VMove where
  | next : VMove
  | prev : VMove
deriving DecidableEq, Repr

/-- The command a vertical motion stands for. -/
def VMove.cmd : VMove → Cmd
  | .next => .next_line
  | .prev => .previous_line

/-- Run a sequence of event-loop iterations each executing one vertical
motion. -/
def run_vmoves (s : EditorState) : List VMove → EditorState
  | [] => s
  | m :: ms => run_vmoves (loop_iteration s m.cmd) ms

/-- A vertical motion succeeds (does not hit a buffer boundary) at state
`s`: the guard of `next_line` or `previous_line` respectively. -/
def vmove_ok (s : EditorState) : VMove → Bool
  | .next => decide (s.buffer.cursor.line < linesCount s - 1)
  | .prev => decide (0 < s.buffer.cursor.line)

/-- Every motion of the sequence succeeds at the state it runs from. -/
def allOk (s : EditorState) : List VMove → Bool
  | [] => true
  | m :: ms => vmove_ok s m && allOk (loop_iteration s m.cmd) ms

/-- Mirrors `Key` in `src/key.rs`: a 32-bit scalar plus a meta flag; the
ctrl modifier is folded into the code. -/
structure Key where
  meta : Bool
  code : Nat
deriving DecidableEq, Repr

namespace Key

/-- Mirrors `Key::from_code`. -/
def from_code (code : Nat) : Key :=
  { code := code, meta := false }

/-- Mirrors `Key::meta` (named apart from the field). -/
def with_meta (k : Key) : Key :=
  { k with meta := true }

/-- Mirrors `Key::ctrl`: `code &= 0x1f`. -/
def with_ctrl (k : Key) : Key :=
  { k with code := 0x1f &&& k.code }

/-- Mirrors `Key::is_ctrl`. -/
def is_ctrl (k : Key) : Bool :=
  k.code == 0x1f &&& k.code

/-- UTF-8 byte length of a character sequence; mirrors `str::len` on the
Rust side, where key descriptions are UTF-8 strings. -/
def utf8Len (l : List Char) : Nat :=
  (l.map Char.utf8Size).sum

/-- Mirrors `Key::parse_unmodified`: a single byte is taken as its scalar,
otherwise one of the named keys DEL/RET/TAB. -/
def parse_unmodified (key : List Char) : Option Key :=
  if utf8Len key = 1 then
    some (from_code (key.headD ' ').toNat)
  else if key = "DEL".data then some (from_code 127)
  else if key = "RET".data then some (from_code 13)
  else if key = "TAB".data then some (from_code 9)
  else none

/-- Mirrors the free function `starts_with` in `src/key.rs`: strip a
prefix, or fail. -/
def starts_with (pre str : List Char) : Option (List Char) :=
  if pre.isPrefixOf str then some (str.drop pre.length) else none

/-- Mirrors `Key::parse`: optional `C-M-` / `C-` / `M-` modifiers applied to
an unmodified key. -/
def parse (key : List Char) : Option Key :=
  match starts_with "C-M-".data key with
  | some suffix => (parse_unmodified suffix).map (fun k => k.with_ctrl.with_meta)
  | none =>
    match starts_with "C-".data key with
    | some suffix => (parse_unmodified suffix).map (fun k => k.with_ctrl)
    | none =>
      match starts_with "M-".data key with
      | some suffix => (parse_unmodified suffix).map (fun k => k.with_meta)
      | none => parse_unmodified key

/-- Mirrors `impl fmt::Display for Key`: `C-` when the code is a control
code, `M-` when meta is set, then the character `code + 0x60` — the source
adds `('a' as u32 & !0x1f)`, i.e. `0x60`, unconditionally (`Char.ofNat`
stands for the `char::from_u32(..).unwrap()`, which only panics on codes the
claims never reach). -/
def format (k : Key) : List Char :=
  (if k.is_ctrl then "C-".data else []) ++
    (if k.meta then "M-".data else []) ++
    [Char.ofNat (k.code + 0x60)]

end Key

/-- Mirrors `Window::last_visible_line` (with `window_lines` already
resolved from the region): `scroll_line + window_lines − 1`. -/
def last_visible_line (scroll window_lines : Nat) : Nat :=
  scroll + window_lines - 1

/-- Mirrors the `buffer_progress` computation of `Window::render_modeline`:
`"Top"` when the scroll origin is 0, `"Bot"` when the last visible line is
`≥ lines_count`, else the percentage `100*(cursor.line+1)/lines_count`. -/
def buffer_progress (s : EditorState) : String :=
  if s.scroll_line = 0 then "Top"
  else if last_visible_line s.scroll_line s.window_lines ≥ linesCount s then "Bot"
  else Nat.repr (100 * (s.buffer.cursor.line + 1) / linesCount s) ++ "%"

/-- Mirrors `Buffer::backward_delete` in `src/buffer.rs`, the standalone
sibling of `commands::delete_backward_char`. -/
def Buffer.backward_delete (b : Buffer) : Buffer :=
  if 0 < b.cursor.column then
    let col := b.cursor.column - 1
    { b with
      cursor := ⟨b.cursor.line, col⟩,
      lines := b.lines.set b.cursor.line
        ((b.get_line_unchecked b.cursor.line).eraseIdx col) }
  else if 0 < b.cursor.line then
    let line := b.get_line_unchecked b.cursor.line
    let lines1 := b.lines.eraseIdx b.cursor.line
    let prev := lines1.getD (b.cursor.line - 1) []
    { b with
      lines := lines1.set (b.cursor.line - 1) (prev ++ line),
      cursor := ⟨b.cursor.line - 1, prev.length⟩ }
  else b

/-- Splitting after appending a final separator adds one empty piece at the
end. -/
lemma splitOnP_append_sep {α : Type} (p : α → Bool) (x : α) (hx : p x = true)
    (s : List α) : (s ++ [x]).splitOnP p = s.splitOnP p ++ [[]] := by
  induction s with
  | nil => simp [hx]
  | cons a s ih =>
    by_cases h : p a
    · simp [h, ih]
    · simp only [List.cons_append, List.splitOnP_cons, h, if_neg, Bool.false_eq_true,
        not_false_eq_true, ih]
      cases hsp : s.splitOnP p with
      | nil => exact absurd hsp (List.splitOnP_ne_nil p s)
      | cons hd tl => simp [List.modifyHead]

/-- C2: `Buffer::from_string` and `Buffer::to_string` are mutually inverse —
`to_string (from_string s) = s` for every string; `from_string (to_string B)`
recovers the exact line sequence of any buffer whose (non-empty) line list
contains no newline characters; and a string ending in a newline splits into
a sequence whose last line is empty (so it serializes back byte-identically
by the first part). -/
theorem c2_roundtrip (s : List Char) (b : Buffer) (hb : b.lines ≠ [])
    (hnl : ∀ l ∈ b.lines, '\n' ∉ l) :
    (Buffer.from_string s).to_string = s ∧
    (Buffer.from_string b.to_string).lines = b.lines ∧
    ((Buffer.from_string (s ++ ['\n'])).lines).getLast? = some ([] : Line) := by
  refine ⟨?_, ?_, ?_⟩
  · simpa [Buffer.from_string, Buffer.set, Buffer.new, Buffer.to_string] using
      List.intercalate_splitOn s '\n'
  · simpa [Buffer.from_string, Buffer.set, Buffer.new, Buffer.to_string] using
      List.splitOn_intercalate b.lines '\n' hnl hb
  · have h := splitOnP_append_sep (fun c => c == '\n') '\n' (by simp) s
    simp [Buffer.from_string, Buffer.set, Buffer.new, List.splitOn, h]

/-- A concrete two-line buffer used by the round-trip witness. -/
def twoLineBuffer : Buffer :=
  { lines := [['a'], ['b']], cursor := ⟨0, 0⟩, filename := none }

/-- Witness for `c2_roundtrip` at a loaded file "ab\n" and a two-line
buffer. -/
theorem c2_roundtrip_witness :
    (twoLineBuffer.lines ≠ [] ∧ ∀ l ∈ twoLineBuffer.lines, '\n' ∉ l) ∧
    ((Buffer.from_string "ab\n".data).to_string = "ab\n".data ∧
      (Buffer.from_string twoLineBuffer.to_string).lines = twoLineBuffer.lines ∧
      ((Buffer.from_string ("ab\n".data ++ ['\n'])).lines).getLast? =
        some ([] : Line)) :=
  ⟨⟨by decide, by decide⟩,
    c2_roundtrip "ab\n".data twoLineBuffer (by decide) (by decide)⟩

/-- C10: the command `delete_backward_char` and the standalone method
`Buffer::backward_delete` perform the identical transformation of the
current buffer (lines and cursor), and the command always returns `Ok`. -/
theorem c10_backward_delete_refines (s : EditorState) :
    (delete_backward_char s).1.buffer = s.buffer.backward_delete ∧
    (delete_backward_char s).2 = CmdRes.ok := by
  unfold delete_backward_char Buffer.backward_delete remove_char_at setLine
    setCursor Buffer.get_line_unchecked
  split_ifs <;> simp_all [List.getD]

@[simp] lemma setCursor_buffer_lines (s : EditorState) (l c : Nat) :
    (setCursor s l c).buffer.lines = s.buffer.lines := rfl

@[simp] lemma setCursor_buffer_cursor (s : EditorState) (l c : Nat) :
    (setCursor s l c).buffer.cursor = ⟨l, c⟩ := rfl

@[simp] lemma setCursor_goal (s : EditorState) (l c : Nat) :
    (setCursor s l c).goal = s.goal := rfl

@[simp] lemma setCursor_minibuf (s : EditorState) (l c : Nat) :
    (setCursor s l c).minibuf = s.minibuf := rfl

@[simp] lemma setCursor_scroll (s : EditorState) (l c : Nat) :
    (setCursor s l c).scroll_line = s.scroll_line := rfl

@[simp] lemma setCursor_window (s : EditorState) (l c : Nat) :
    (setCursor s l c).window_lines = s.window_lines := rfl

@[simp] lemma setLine_buffer_lines (s : EditorState) (n : Nat) (v : Line) :
    (setLine s n v).buffer.lines = s.buffer.lines.set n v := rfl

@[simp] lemma setLine_buffer_cursor (s : EditorState) (n : Nat) (v : Line) :
    (setLine s n v).buffer.cursor = s.buffer.cursor := rfl

@[simp] lemma setLine_goal (s : EditorState) (n : Nat) (v : Line) :
    (setLine s n v).goal = s.goal := rfl

@[simp] lemma message_buffer (s : EditorState) (m : String) :
    (message s m).buffer = s.buffer := rfl

@[simp] lemma message_goal (s : EditorState) (m : String) :
    (message s m).goal = s.goal := rfl

@[simp] lemma message_scroll (s : EditorState) (m : String) :
    (message s m).scroll_line = s.scroll_line := rfl

@[simp] lemma message_minibuf (s : EditorState) (m : String) :
    (message s m).minibuf = m := rfl

lemma getD_set_self {α : Type} (l : List α) (n : Nat) (v d : α)
    (h : n < l.length) : (l.set n v).getD n d = v := by
  simp [List.getD_eq_getElem?_getD, List.getElem?_set_self h]

lemma getD_set_ne {α : Type} (l : List α) {n m : Nat} (v d : α)
    (h : n ≠ m) : (l.set n v).getD m d = l.getD m d := by
  simp [List.getD_eq_getElem?_getD, List.getElem?_set_ne h]

lemma getD_insertIdx_self {α : Type} (l : List α) (n : Nat) (v d : α)
    (h : n ≤ l.length) : (l.insertIdx n v).getD n d = v := by
  have hlen : n < (l.insertIdx n v).length := by
    rw [List.length_insertIdx n l h]; omega
  rw [List.getD_eq_getElem?_getD, List.getElem?_eq_getElem hlen]
  simp [List.getElem_insertIdx_self l v n h]

lemma getD_eraseIdx_lt {α : Type} (l : List α) {n m : Nat} (d : α)
    (h : m < n) : (l.eraseIdx n).getD m d = l.getD m d := by
  simp [List.getD_eq_getElem?_getD, List.getElem?_eraseIdx, h]

/-- A `position` hit is an index strictly inside the line. -/
lemma position_lt_length {p : Char → Bool} {l : Line} {i : Nat}
    (h : position p l = some i) : i < l.length := by
  induction l generalizing i with
  | nil => simp [position] at h
  | cons c rest ih =>
    by_cases hc : p c
    · simp [position, hc] at h
      simp only [List.length_cons]
      omega
    · simp [position, hc] at h
      obtain ⟨j, hj, rfl⟩ := h
      have := ih hj
      simp only [List.length_cons]
      omega

/-- The indentation of a line never exceeds its length. -/
lemma get_line_indentation_le (l : Line) : get_line_indentation l ≤ l.length := by
  unfold get_line_indentation
  cases h : position (fun ch => !(isRustWhitespace ch)) l with
  | none => simp
  | some i => simpa using Nat.le_of_lt (position_lt_length h)

/-- The buffer invariants of the specification: a non-empty line list and a
cursor inside it, with the column at most the current line's length. -/
def Inv (s : EditorState) : Prop :=
  s.buffer.lines ≠ [] ∧ s.buffer.cursor.line < linesCount s ∧
    s.buffer.cursor.column ≤ (curLine s).length

instance (s : EditorState) : Decidable (Inv s) := by
  unfold Inv; infer_instance

@[simp] lemma linesCount_eq (s : EditorState) :
    linesCount s = s.buffer.lines.length := rfl

@[simp] lemma curLine_eq (s : EditorState) :
    curLine s = s.buffer.lines.getD s.buffer.cursor.line [] := rfl

@[simp] lemma get_line_unchecked_eq (b : Buffer) (n : Nat) :
    b.get_line_unchecked n = b.lines.getD n [] := rfl

lemma set_ne_nil {α : Type} {l : List α} (n : Nat) (v : α) (h : l ≠ []) :
    l.set n v ≠ [] := by
  intro hc
  exact h (List.length_eq_zero.1 (by simpa using congrArg List.length hc))

lemma inv_unfold (s : EditorState) :
    Inv s ↔ (s.buffer.lines ≠ [] ∧ s.buffer.cursor.line < s.buffer.lines.length ∧
      s.buffer.cursor.column ≤ (s.buffer.lines.getD s.buffer.cursor.line []).length) :=
  Iff.rfl

lemma inv_move_beginning_of_line (s : EditorState) (h : Inv s) :
    Inv (move_beginning_of_line s).1 := by
  rw [inv_unfold] at h ⊢
  obtain ⟨h1, h2, h3⟩ := h
  unfold move_beginning_of_line
  dsimp only
  simp only [setCursor_buffer_lines, setCursor_buffer_cursor, curLine_eq,
    get_line_unchecked_eq]
  refine ⟨h1, h2, ?_⟩
  split_ifs with hc
  · omega
  · omega

lemma inv_move_end_of_line (s : EditorState) (h : Inv s) :
    Inv (move_end_of_line s).1 := by
  rw [inv_unfold] at h ⊢
  obtain ⟨h1, h2, h3⟩ := h
  unfold move_end_of_line
  dsimp only
  simp only [setCursor_buffer_lines, setCursor_buffer_cursor, curLine_eq,
    get_line_unchecked_eq]
  exact ⟨h1, h2, le_refl _⟩

lemma inv_next_line (s : EditorState) (h : Inv s) : Inv (next_line s).1 := by
  rw [inv_unfold] at h
  obtain ⟨h1, h2, h3⟩ := h
  unfold next_line
  split_ifs with hlt
  · rw [inv_unfold]
    simp only [linesCount_eq] at hlt
    simp only [setCursor_buffer_lines, setCursor_buffer_cursor,
      get_line_unchecked_eq, get_or_set_gaol_column]
    exact ⟨h1, by omega, Nat.min_le_left _ _⟩
  · exact ⟨h1, h2, h3⟩

lemma inv_previous_line (s : EditorState) (h : Inv s) :
    Inv (previous_line s).1 := by
  rw [inv_unfold] at h
  obtain ⟨h1, h2, h3⟩ := h
  unfold previous_line
  split_ifs with hlt
  · rw [inv_unfold]
    simp only [setCursor_buffer_lines, setCursor_buffer_cursor,
      get_line_unchecked_eq, get_or_set_gaol_column]
    exact ⟨h1, by omega, Nat.min_le_left _ _⟩
  · exact ⟨h1, h2, h3⟩

lemma inv_forward_char (s : EditorState) (h : Inv s) :
    Inv (forward_char s).1 := by
  have hcopy := h
  rw [inv_unfold] at h
  obtain ⟨h1, h2, h3⟩ := h
  unfold forward_char
  split_ifs with hlt
  · rw [inv_unfold]
    simp only [curLine_eq, get_line_unchecked_eq] at hlt
    simp only [setCursor_buffer_lines, setCursor_buffer_cursor]
    exact ⟨h1, h2, by omega⟩
  · refine inv_next_line _ ?_
    rw [inv_unfold]
    simp only [setCursor_buffer_lines, setCursor_buffer_cursor]
    exact ⟨h1, h2, by omega⟩

lemma inv_backward_char (s : EditorState) (h : Inv s) :
    Inv (backward_char s).1 := by
  have hcopy := h
  rw [inv_unfold] at h
  obtain ⟨h1, h2, h3⟩ := h
  unfold backward_char
  split_ifs with hlt
  · rw [inv_unfold]
    simp only [setCursor_buffer_lines, setCursor_buffer_cursor]
    exact ⟨h1, h2, by omega⟩
  · have hp := inv_previous_line s hcopy
    rcases hpl : previous_line s with ⟨s1, r⟩
    rw [hpl] at hp
    cases r
    · exact inv_move_end_of_line s1 hp
    · exact hp

lemma inv_insert_char (s : EditorState) (ch : Char) (h : Inv s) :
    Inv (insert_char s ch) := by
  rw [inv_unfold] at h
  obtain ⟨h1, h2, h3⟩ := h
  unfold insert_char
  dsimp only
  rw [inv_unfold]
  simp only [setCursor_buffer_lines, setCursor_buffer_cursor, setLine_buffer_lines,
    setLine_buffer_cursor, curLine_eq, get_line_unchecked_eq, List.length_set]
  refine ⟨set_ne_nil _ _ h1, h2, ?_⟩
  rw [getD_set_self _ _ _ _ h2]
  rw [List.length_insertIdx _ _ h3]
  omega

lemma inv_delete_backward_char (s : EditorState) (h : Inv s) :
    Inv (delete_backward_char s).1 := by
  have hcopy := h
  rw [inv_unfold] at h
  obtain ⟨h1, h2, h3⟩ := h
  unfold delete_backward_char remove_char_at
  dsimp only
  split_ifs with hc hl
  · rw [inv_unfold]
    simp only [setCursor_buffer_lines, setCursor_buffer_cursor, setLine_buffer_lines,
      setLine_buffer_cursor, get_line_unchecked_eq, List.length_set]
    refine ⟨set_ne_nil _ _ h1, h2, ?_⟩
    rw [getD_set_self _ _ _ _ h2]
    rw [List.length_eraseIdx]
    split_ifs <;> omega
  · have hlen : (s.buffer.lines.eraseIdx s.buffer.cursor.line).length =
        s.buffer.lines.length - 1 := by
      rw [List.length_eraseIdx]; simp [h2]
    rw [inv_unfold]
    simp only [setCursor_buffer_lines, setCursor_buffer_cursor, setLine_buffer_lines,
      setLine_buffer_cursor, get_line_unchecked_eq, List.length_set]
    refine ⟨?_, ?_, ?_⟩
    · apply set_ne_nil
      intro hc2
      have := congrArg List.length hc2
      rw [hlen] at this
      simp only [List.length_nil] at this
      omega
    · rw [hlen]; omega
    · rw [getD_set_self _ _ _ _ (by rw [hlen]; omega)]
      simp
  · exact hcopy

lemma inv_delete_char (s : EditorState) (h : Inv s) : Inv (delete_char s).1 := by
  unfold delete_char
  have hf := inv_forward_char s h
  rcases hfc : forward_char s with ⟨s1, r⟩
  rw [hfc] at hf
  cases r
  · exact inv_delete_backward_char s1 hf
  · exact hf

lemma inv_kill_line (s : EditorState) (h : Inv s) : Inv (kill_line s).1 := by
  have hcopy := h
  rw [inv_unfold] at h
  obtain ⟨h1, h2, h3⟩ := h
  unfold kill_line
  dsimp only
  split_ifs with he hl
  · exact inv_delete_char s hcopy
  · exact hcopy
  · rw [inv_unfold]
    simp only [setLine_buffer_lines, setLine_buffer_cursor, curLine_eq,
      get_line_unchecked_eq, List.length_set]
    refine ⟨set_ne_nil _ _ h1, h2, ?_⟩
    rw [getD_set_self _ _ _ _ h2]
    simp only [List.length_take]
    omega

lemma inv_newline (s : EditorState) (h : Inv s) : Inv (newline s).1 := by
  rw [inv_unfold] at h
  obtain ⟨h1, h2, h3⟩ := h
  unfold newline
  dsimp only
  rw [inv_unfold]
  simp only [setCursor_buffer_lines, setCursor_buffer_cursor, setLine_buffer_lines,
    setLine_buffer_cursor, curLine_eq, get_line_unchecked_eq]
  have hle : s.buffer.cursor.line + 1 ≤ (s.buffer.lines.set s.buffer.cursor.line
      ((s.buffer.lines.getD s.buffer.cursor.line []).take s.buffer.cursor.column)).length := by
    rw [List.length_set]; omega
  refine ⟨?_, ?_, by omega⟩
  · intro hc
    have := congrArg List.length hc
    rw [List.length_insertIdx _ _ hle] at this
    simp only [List.length_nil] at this
    omega
  · rw [List.length_insertIdx _ _ hle, List.length_set]
    omega

lemma inv_indent_line (s : EditorState) (h : Inv s) : Inv (indent_line s).1 := by
  have hcopy := h
  rw [inv_unfold] at h
  obtain ⟨h1, h2, h3⟩ := h
  unfold indent_line
  dsimp only
  simp only [curLine_eq, get_line_unchecked_eq]
  split_ifs with hc
  · rw [inv_unfold]
    simp only [setCursor_buffer_lines, setCursor_buffer_cursor]
    refine ⟨h1, h2, ?_⟩
    have := get_line_indentation_le (s.buffer.lines.getD s.buffer.cursor.line [])
    omega
  · exact hcopy

lemma inv_beginning_of_buffer (s : EditorState) (h : Inv s) :
    Inv (beginning_of_buffer s).1 := by
  rw [inv_unfold] at h
  obtain ⟨h1, h2, h3⟩ := h
  unfold beginning_of_buffer
  rw [inv_unfold]
  simp only [setCursor_buffer_lines, setCursor_buffer_cursor]
  exact ⟨h1, by omega, by omega⟩

lemma inv_end_of_buffer (s : EditorState) (h : Inv s) :
    Inv (end_of_buffer s).1 := by
  rw [inv_unfold] at h
  obtain ⟨h1, h2, h3⟩ := h
  unfold end_of_buffer
  dsimp only
  rw [inv_unfold]
  simp only [setCursor_buffer_lines, setCursor_buffer_cursor, linesCount_eq,
    get_line_unchecked_eq]
  exact ⟨h1, by omega, le_refl _⟩

lemma inv_save_buffer (s : EditorState) (ioOk : Bool) (h : Inv s) :
    Inv (save_buffer s ioOk).1 := by
  unfold save_buffer
  rcases s.buffer.filename with _ | f
  · exact h
  · dsimp only
    split_ifs <;> exact h

lemma next_screen_buffer_lines (s : EditorState) :
    (next_screen s).1.buffer.lines = s.buffer.lines := by
  unfold next_screen
  dsimp only
  split_ifs <;> rfl

lemma previous_screen_buffer_lines (s : EditorState) :
    (previous_screen s).1.buffer.lines = s.buffer.lines := by
  unfold previous_screen
  dsimp only
  split_ifs <;> rfl

lemma next_screen_cursor_line (s : EditorState) (h : Inv s) :
    (next_screen s).1.buffer.cursor.line < linesCount (next_screen s).1 := by
  have h2 := h.2.1
  unfold next_screen
  dsimp only
  split_ifs with ht
  · simp only [linesCount_eq] at ht ⊢
    simpa using ht
  · simpa using h2

/-- A concrete state refuting C1: buffer "abc\n" (a three-character line
followed by an empty line), cursor at the end of the first line, scroll 0,
a window of 4 text rows. `next_screen` moves the cursor to the empty second
line but keeps column 3, breaking `column ≤ line length`. -/
def c1State : EditorState :=
  { buffer := { lines := [['a', 'b', 'c'], []], cursor := ⟨0, 3⟩, filename := none },
    goal := ⟨none, false⟩, scroll_line := 0, window_lines := 4,
    minibuf := "", event_result := none }

/-- C1 as stated is false: from a state satisfying the buffer invariants,
`next_screen` (with its guard satisfied) can leave the cursor column above
the current line's length. -/
theorem c1_counterexample :
    Inv c1State ∧ 3 ≤ c1State.window_lines ∧
      ¬ Inv (runCmd Cmd.next_screen c1State).1 := by decide

/-- C1 (amended): from a state satisfying the buffer invariants (with the
window at least 3 text rows high, so the screen commands' offset arithmetic
does not underflow), every command other than `next_screen` and
`previous_screen` preserves all the invariants; every command (the two
screen commands included) keeps the line list non-empty; and `next_screen`
also keeps `cursor.line < lines_count`. The two screen commands set
`cursor.line` from the scroll position without clamping the column, so the
column bound (and, for `previous_screen`, the line bound) can be violated. -/
theorem c1_cursor_invariants (s : EditorState) (c : Cmd) (hI : Inv s)
    (_hw : 3 ≤ s.window_lines) :
    (c ≠ Cmd.next_screen ∧ c ≠ Cmd.previous_screen → Inv (runCmd c s).1) ∧
    (runCmd c s).1.buffer.lines ≠ [] ∧
    (c = Cmd.next_screen →
      (runCmd c s).1.buffer.cursor.line < linesCount (runCmd c s).1) := by
  cases c with
  | move_beginning_of_line =>
    exact ⟨fun _ => inv_move_beginning_of_line s hI,
      (inv_move_beginning_of_line s hI).1, fun hc => Cmd.noConfusion hc⟩
  | move_end_of_line =>
    exact ⟨fun _ => inv_move_end_of_line s hI,
      (inv_move_end_of_line s hI).1, fun hc => Cmd.noConfusion hc⟩
  | forward_char =>
    exact ⟨fun _ => inv_forward_char s hI,
      (inv_forward_char s hI).1, fun hc => Cmd.noConfusion hc⟩
  | backward_char =>
    exact ⟨fun _ => inv_backward_char s hI,
      (inv_backward_char s hI).1, fun hc => Cmd.noConfusion hc⟩
  | next_line =>
    exact ⟨fun _ => inv_next_line s hI,
      (inv_next_line s hI).1, fun hc => Cmd.noConfusion hc⟩
  | previous_line =>
    exact ⟨fun _ => inv_previous_line s hI,
      (inv_previous_line s hI).1, fun hc => Cmd.noConfusion hc⟩
  | insert_char ch =>
    exact ⟨fun _ => inv_insert_char s ch hI,
      (inv_insert_char s ch hI).1, fun hc => Cmd.noConfusion hc⟩
  | delete_char =>
    exact ⟨fun _ => inv_delete_char s hI,
      (inv_delete_char s hI).1, fun hc => Cmd.noConfusion hc⟩
  | delete_backward_char =>
    exact ⟨fun _ => inv_delete_backward_char s hI,
      (inv_delete_backward_char s hI).1, fun hc => Cmd.noConfusion hc⟩
  | kill_line =>
    exact ⟨fun _ => inv_kill_line s hI,
      (inv_kill_line s hI).1, fun hc => Cmd.noConfusion hc⟩
  | newline =>
    exact ⟨fun _ => inv_newline s hI,
      (inv_newline s hI).1, fun hc => Cmd.noConfusion hc⟩
  | indent_line =>
    exact ⟨fun _ => inv_indent_line s hI,
      (inv_indent_line s hI).1, fun hc => Cmd.noConfusion hc⟩
  | save_buffer ioOk =>
    exact ⟨fun _ => inv_save_buffer s ioOk hI,
      (inv_save_buffer s ioOk hI).1, fun hc => Cmd.noConfusion hc⟩
  | next_screen =>
    refine ⟨fun hc => absurd rfl hc.1, ?_, fun _ => next_screen_cursor_line s hI⟩
    show (next_screen s).1.buffer.lines ≠ []
    rw [next_screen_buffer_lines]
    exact hI.1
  | previous_screen =>
    refine ⟨fun hc => absurd rfl hc.2, ?_, fun hc => Cmd.noConfusion hc⟩
    show (previous_screen s).1.buffer.lines ≠ []
    rw [previous_screen_buffer_lines]
    exact hI.1
  | beginning_of_buffer =>
    exact ⟨fun _ => inv_beginning_of_buffer s hI,
      (inv_beginning_of_buffer s hI).1, fun hc => Cmd.noConfusion hc⟩
  | end_of_buffer =>
    exact ⟨fun _ => inv_end_of_buffer s hI,
      (inv_end_of_buffer s hI).1, fun hc => Cmd.noConfusion hc⟩
  | kill_rile =>
    exact ⟨fun _ => hI, hI.1, fun hc => Cmd.noConfusion hc⟩
  | keyboard_quit =>
    exact ⟨fun _ => hI, hI.1, fun hc => Cmd.noConfusion hc⟩
  | minibuffer_complete =>
    exact ⟨fun _ => hI, hI.1, fun hc => Cmd.noConfusion hc⟩

/-- Witness for `c1_cursor_invariants` at the concrete state `c1State` and
the command `newline`. -/
theorem c1_cursor_invariants_witness :
    (Inv c1State ∧ 3 ≤ c1State.window_lines) ∧
    ((Cmd.newline ≠ Cmd.next_screen ∧ Cmd.newline ≠ Cmd.previous_screen →
        Inv (runCmd Cmd.newline c1State).1) ∧
      (runCmd Cmd.newline c1State).1.buffer.lines ≠ [] ∧
      (Cmd.newline = Cmd.next_screen →
        (runCmd Cmd.newline c1State).1.buffer.cursor.line <
          linesCount (runCmd Cmd.newline c1State).1)) :=
  ⟨⟨by decide, by decide⟩,
    c1_cursor_invariants c1State Cmd.newline (by decide) (by decide)⟩

lemma adjust_scroll_buffer (s : EditorState) :
    (adjust_scroll s).buffer = s.buffer := by
  unfold adjust_scroll
  dsimp only
  split_ifs <;> rfl

lemma adjust_scroll_goal (s : EditorState) :
    (adjust_scroll s).goal = s.goal := by
  unfold adjust_scroll
  dsimp only
  split_ifs <;> rfl

/-- Behavior of `next_line` when not on the last line, as one equation. -/
lemma next_line_ok (s : EditorState)
    (h : s.buffer.cursor.line < linesCount s - 1) :
    next_line s =
      (setCursor { s with goal :=
          { column := some (s.goal.column.getD s.buffer.cursor.column),
            to_preserve := true } }
        (s.buffer.cursor.line + 1)
        (min (s.buffer.lines.getD (s.buffer.cursor.line + 1) []).length
          (s.goal.column.getD s.buffer.cursor.column)), CmdRes.ok) := by
  unfold next_line
  rw [if_pos h]
  rfl

/-- Behavior of `next_line` on the last line, as one equation. -/
lemma next_line_err (s : EditorState)
    (h : ¬ s.buffer.cursor.line < linesCount s - 1) :
    next_line s = (message s "End of buffer", CmdRes.err) := by
  unfold next_line
  rw [if_neg h]

/-- Behavior of `previous_line` when not on the first line, as one
equation. -/
lemma previous_line_ok (s : EditorState) (h : 0 < s.buffer.cursor.line) :
    previous_line s =
      (setCursor { s with goal :=
          { column := some (s.goal.column.getD s.buffer.cursor.column),
            to_preserve := true } }
        (s.buffer.cursor.line - 1)
        (min (s.buffer.lines.getD (s.buffer.cursor.line - 1) []).length
          (s.goal.column.getD s.buffer.cursor.column)), CmdRes.ok) := by
  unfold previous_line
  rw [if_pos h]
  rfl

/-- A successful vertical motion run as an event-loop iteration stores the
goal column (initialized from the current column when unset) and clamps the
cursor column to the minimum of the new line's length and the goal. -/
lemma loop_iteration_vmove (s : EditorState) (m : VMove)
    (hok : vmove_ok s m = true) :
    (loop_iteration s m.cmd).goal.column =
      some (s.goal.column.getD s.buffer.cursor.column) ∧
    (loop_iteration s m.cmd).buffer.cursor.column =
      min (curLine (loop_iteration s m.cmd)).length
        (s.goal.column.getD s.buffer.cursor.column) := by
  cases m with
  | next =>
    have hlt : s.buffer.cursor.line < linesCount s - 1 := by
      simpa [vmove_ok] using hok
    unfold loop_iteration
    simp only [VMove.cmd, runCmd]
    rw [next_line_ok _ (by simpa using hlt)]
    simp [adjust_scroll_goal, adjust_scroll_buffer]
  | prev =>
    have hlt : 0 < s.buffer.cursor.line := by
      simpa [vmove_ok] using hok
    unfold loop_iteration
    simp only [VMove.cmd, runCmd]
    rw [previous_line_ok _ (by simpa using hlt)]
    simp [adjust_scroll_goal, adjust_scroll_buffer]

/-- Along a sequence of successful vertical motions the stored goal column
stays fixed and the cursor column stays clamped to it. -/
lemma run_vmoves_goalinv (ms : List VMove) (s : EditorState) (g : Nat)
    (hg : s.goal.column = some g)
    (hcol : s.buffer.cursor.column = min (curLine s).length g)
    (hok : allOk s ms = true) :
    (run_vmoves s ms).goal.column = some g ∧
    (run_vmoves s ms).buffer.cursor.column =
      min (curLine (run_vmoves s ms)).length g := by
  induction ms generalizing s with
  | nil => exact ⟨hg, hcol⟩
  | cons m ms ih =>
    simp only [allOk, Bool.and_eq_true] at hok
    have h1 := loop_iteration_vmove s m hok.1
    rw [hg] at h1
    simp only [Option.getD_some] at h1
    exact ih _ h1.1 h1.2 hok.2

/-- A concrete state refuting C3: buffer "abcde\nx", cursor at the end of
the first line, goal column unset. The sequence `next_line, next_line,
previous_line` hits the end of the buffer at the second motion, whose
failing iteration does not set `to_preserve`, so the loop clears the stored
goal column 5; the third motion then re-initializes the goal from the
clamped column 1 and the cursor ends at column 1 instead of
`min(5, 5) = 5`. -/
def c3State : EditorState :=
  { buffer := { lines := [['a', 'b', 'c', 'd', 'e'], ['x']],
                cursor := ⟨0, 5⟩, filename := none },
    goal := ⟨none, false⟩, scroll_line := 0, window_lines := 10,
    minibuf := "", event_result := none }

/-- C3 as stated is false: a sequence of event-loop iterations each
executing only `next_line` or `previous_line`, started with the goal column
unset, can end with a cursor column different from
`min(goal_initial, lines[cursor.line].length)`. -/
theorem c3_counterexample :
    c3State.goal.column = none ∧
    (run_vmoves c3State [VMove.next, VMove.next, VMove.prev]).buffer.cursor.column ≠
      min c3State.buffer.cursor.column
        (curLine (run_vmoves c3State [VMove.next, VMove.next, VMove.prev])).length := by
  decide

/-- C3 (amended): for a non-empty sequence of event-loop iterations each
executing only `next_line` or `previous_line`, started with the goal column
unset, and in which every motion succeeds (none hits a buffer boundary),
the final cursor column is `min(goal_initial, lines[cursor.line].length)`
with `goal_initial` the column immediately before the first motion, and the
stored goal column is exactly `goal_initial` throughout; moreover the event
loop clears the goal column after any iteration whose command did not set
`to_preserve`. -/
theorem c3_goal_column (s : EditorState) (m : VMove) (ms : List VMove)
    (hgoal : s.goal.column = none)
    (hok : allOk s (m :: ms) = true) :
    ((run_vmoves s (m :: ms)).buffer.cursor.column =
        min s.buffer.cursor.column
          (curLine (run_vmoves s (m :: ms))).length ∧
      (run_vmoves s (m :: ms)).goal.column = some s.buffer.cursor.column) ∧
    (∀ (t : EditorState) (c : Cmd),
      (runCmd c { t with goal := { t.goal with to_preserve := false }, minibuf := "" }).1.goal.to_preserve = false →
      (loop_iteration t c).goal.column = none) := by
  constructor
  · simp only [allOk, Bool.and_eq_true] at hok
    have h1 := loop_iteration_vmove s m hok.1
    rw [hgoal] at h1
    simp only [Option.getD_none] at h1
    have h2 := run_vmoves_goalinv ms (loop_iteration s m.cmd)
      s.buffer.cursor.column h1.1 h1.2 hok.2
    exact ⟨by rw [show run_vmoves s (m :: ms) = run_vmoves (loop_iteration s m.cmd) ms from rfl,
        h2.2, Nat.min_comm], h2.1⟩
  · intro t c hc
    unfold loop_iteration
    dsimp only
    rw [adjust_scroll_goal]
    rw [hc]
    simp

/-- Witness for `c3_goal_column`: a single successful `next_line` from the
counterexample's starting state. -/
theorem c3_goal_column_witness :
    (c3State.goal.column = none ∧ allOk c3State [VMove.next] = true) ∧
    (((run_vmoves c3State [VMove.next]).buffer.cursor.column =
        min c3State.buffer.cursor.column
          (curLine (run_vmoves c3State [VMove.next])).length ∧
      (run_vmoves c3State [VMove.next]).goal.column =
        some c3State.buffer.cursor.column) ∧
    (∀ (t : EditorState) (c : Cmd),
      (runCmd c { t with goal := { t.goal with to_preserve := false }, minibuf := "" }).1.goal.to_preserve = false →
      (loop_iteration t c).goal.column = none)) :=
  ⟨⟨by decide, by decide⟩,
    c3_goal_column c3State VMove.next [] (by decide) (by decide)⟩

/-- A single-line buffer "ab" with the cursor at the end of its (last)
line. -/
def c5StateA : EditorState :=
  { buffer := { lines := [['a', 'b']], cursor := ⟨0, 2⟩, filename := none },
    goal := ⟨none, false⟩, scroll_line := 0, window_lines := 10,
    minibuf := "", event_result := none }

/-- A buffer "ab\n" with the cursor at the end of the first line and the
goal column unset. -/
def c5StateB : EditorState :=
  { buffer := { lines := [['a', 'b'], []], cursor := ⟨0, 2⟩, filename := none },
    goal := ⟨none, false⟩, scroll_line := 0, window_lines := 10,
    minibuf := "", event_result := none }

/-- C5 as stated is false on two counts: at the end of the last line
`forward_char` zeroes the cursor column before `next_line` fails, so the
cursor does not stay unchanged; and at the end of a non-last line the goal
column it leaves differs from the one `next_line`-then-`column := 0` leaves
(the code initializes the goal from the already-zeroed column). -/
theorem c5_counterexample :
    ((forward_char c5StateA).2 = CmdRes.err ∧
      (forward_char c5StateA).1.buffer.cursor ≠ c5StateA.buffer.cursor) ∧
    (forward_char c5StateB).1.goal.column ≠ (next_line c5StateB).1.goal.column := by
  decide

/-- C5 (amended): with the cursor at the end of its line, `forward_char`
first zeroes the column and then calls `next_line`. On a non-last line this
returns `Ok` with the cursor on the next line at column
`min(next line length, goal)` where the goal column is initialized from the
already-zeroed column (hence 0 when it was unset) — the same final cursor as
`next_line`-then-`column := 0` only when the goal column is unset, and a
goal state initialized from 0 rather than from the end-of-line column. On
the last line it returns `Err`, reports "End of buffer", and leaves the
cursor at column 0 of the same line (not unchanged), the lines intact. -/
theorem c5_forward_char_at_eol (s : EditorState)
    (heol : s.buffer.cursor.column = (curLine s).length) :
    (s.buffer.cursor.line < linesCount s - 1 →
      (forward_char s).2 = CmdRes.ok ∧
      (forward_char s).1.buffer.cursor =
        ⟨s.buffer.cursor.line + 1,
          min (s.buffer.lines.getD (s.buffer.cursor.line + 1) []).length
            (s.goal.column.getD 0)⟩ ∧
      (forward_char s).1.buffer.lines = s.buffer.lines ∧
      (forward_char s).1.goal =
        { column := some (s.goal.column.getD 0), to_preserve := true }) ∧
    (¬ s.buffer.cursor.line < linesCount s - 1 →
      (forward_char s).2 = CmdRes.err ∧
      (forward_char s).1.minibuf = "End of buffer" ∧
      (forward_char s).1.buffer.cursor = ⟨s.buffer.cursor.line, 0⟩ ∧
      (forward_char s).1.buffer.lines = s.buffer.lines ∧
      (forward_char s).1.goal = s.goal) := by
  have hno : ¬ s.buffer.cursor.column < (curLine s).length := by omega
  constructor
  · intro hlt
    unfold forward_char
    rw [if_neg hno]
    rw [next_line_ok _ (by simpa using hlt)]
    exact ⟨rfl, rfl, rfl, rfl⟩
  · intro hlt
    unfold forward_char
    rw [if_neg hno]
    rw [next_line_err _ (by simpa using hlt)]
    exact ⟨rfl, rfl, rfl, rfl, rfl⟩

/-- Witness for `c5_forward_char_at_eol` at the end of the first line of
"ab\n", taking the non-last-line branch. -/
theorem c5_forward_char_at_eol_witness :
    (c5StateB.buffer.cursor.column = (curLine c5StateB).length ∧
      c5StateB.buffer.cursor.line < linesCount c5StateB - 1) ∧
    ((forward_char c5StateB).2 = CmdRes.ok ∧
      (forward_char c5StateB).1.buffer.cursor =
        ⟨c5StateB.buffer.cursor.line + 1,
          min (c5StateB.buffer.lines.getD (c5StateB.buffer.cursor.line + 1) []).length
            (c5StateB.goal.column.getD 0)⟩ ∧
      (forward_char c5StateB).1.buffer.lines = c5StateB.buffer.lines ∧
      (forward_char c5StateB).1.goal =
        { column := some (c5StateB.goal.column.getD 0), to_preserve := true }) :=
  ⟨⟨by decide, by decide⟩,
    (c5_forward_char_at_eol c5StateB (by decide)).1 (by decide)⟩

lemma join_lines_eq (L : List Line) (i : Nat) (h0 : 0 < i) (hi : i < L.length)
    (v : Line) :
    (L.eraseIdx i).set (i - 1) v = L.take (i - 1) ++ v :: L.drop (i + 1) := by
  rw [List.eraseIdx_eq_take_drop_succ]
  rw [List.set_eq_take_append_cons_drop]
  have hlen : (List.take i L).length = i := by
    rw [List.length_take]; omega
  rw [if_pos (by rw [List.length_append, hlen]; simp [List.length_drop]; omega)]
  congr 1
  · rw [List.take_append_eq_append_take, hlen]
    rw [show i - 1 - i = 0 from by omega]
    rw [List.take_take]
    rw [show min (i - 1) i = i - 1 from by omega]
    simp
  · congr 1
    rw [show i - 1 + 1 = i from by omega]
    rw [List.drop_append_eq_append_drop, hlen]
    rw [List.drop_take]
    rw [show i - i = 0 from by omega]
    simp

/-- C6: `delete_backward_char` with the cursor at column 0 of a line `> 0`
removes the current line, appends its contents to the previous line, and
puts the cursor at the previous line's former end; with a positive column
it decrements the column and removes that character; at `(0,0)` it is a
no-op returning `Ok`. -/
theorem c6_delete_backward_char (s : EditorState) (hInv : Inv s) :
    (0 < s.buffer.cursor.column →
      (delete_backward_char s).2 = CmdRes.ok ∧
      (delete_backward_char s).1.buffer.cursor =
        ⟨s.buffer.cursor.line, s.buffer.cursor.column - 1⟩ ∧
      (delete_backward_char s).1.buffer.lines =
        s.buffer.lines.set s.buffer.cursor.line
          ((curLine s).take (s.buffer.cursor.column - 1) ++
            (curLine s).drop s.buffer.cursor.column)) ∧
    (s.buffer.cursor.column = 0 → 0 < s.buffer.cursor.line →
      (delete_backward_char s).2 = CmdRes.ok ∧
      (delete_backward_char s).1.buffer.cursor =
        ⟨s.buffer.cursor.line - 1,
          (s.buffer.lines.getD (s.buffer.cursor.line - 1) []).length⟩ ∧
      (delete_backward_char s).1.buffer.lines =
        s.buffer.lines.take (s.buffer.cursor.line - 1) ++
          (s.buffer.lines.getD (s.buffer.cursor.line - 1) [] ++ curLine s) ::
            s.buffer.lines.drop (s.buffer.cursor.line + 1)) ∧
    (s.buffer.cursor.column = 0 → s.buffer.cursor.line = 0 →
      delete_backward_char s = (s, CmdRes.ok)) := by
  obtain ⟨h1, h2, h3⟩ := hInv
  refine ⟨?_, ?_, ?_⟩
  · intro hc
    unfold delete_backward_char remove_char_at
    rw [if_pos hc]
    refine ⟨rfl, rfl, ?_⟩
    simp only [setCursor_buffer_lines, setCursor_buffer_cursor, setLine_buffer_lines,
      get_line_unchecked_eq, curLine_eq]
    rw [List.eraseIdx_eq_take_drop_succ]
    rw [show s.buffer.cursor.column - 1 + 1 = s.buffer.cursor.column from by omega]
  · intro hc hl
    unfold delete_backward_char remove_char_at
    rw [if_neg (by omega), if_pos hl]
    refine ⟨rfl, ?_, ?_⟩
    · simp only [setCursor_buffer_cursor]
      have := getD_eraseIdx_lt s.buffer.lines ([] : Line)
        (show s.buffer.cursor.line - 1 < s.buffer.cursor.line from by omega)
      simp only [get_line_unchecked_eq]
      rw [this]
    · have hprev := getD_eraseIdx_lt s.buffer.lines ([] : Line)
        (show s.buffer.cursor.line - 1 < s.buffer.cursor.line from by omega)
      simp only [setCursor_buffer_lines, setLine_buffer_lines, get_line_unchecked_eq,
        curLine_eq]
      rw [hprev]
      exact join_lines_eq s.buffer.lines s.buffer.cursor.line hl
        (by simpa using h2) _
  · intro hc hl
    unfold delete_backward_char
    rw [if_neg (by omega), if_neg (by omega)]

/-- The state of the source's own unit test
`delete_backward_char_first_line_char`: buffer "abc\nde", cursor at the
start of the second line. -/
def c6State : EditorState :=
  { buffer := { lines := [['a', 'b', 'c'], ['d', 'e']], cursor := ⟨1, 0⟩,
                filename := none },
    goal := ⟨none, false⟩, scroll_line := 0, window_lines := 10,
    minibuf := "", event_result := none }

/-- Witness for `c6_delete_backward_char`: the join case on "abc\nde" with
the cursor at the start of the second line (the source's own unit test). -/
theorem c6_delete_backward_char_witness :
    (Inv c6State ∧ c6State.buffer.cursor.column = 0 ∧
      0 < c6State.buffer.cursor.line) ∧
    ((delete_backward_char c6State).2 = CmdRes.ok ∧
      (delete_backward_char c6State).1.buffer.cursor =
        ⟨c6State.buffer.cursor.line - 1,
          (c6State.buffer.lines.getD (c6State.buffer.cursor.line - 1) []).length⟩ ∧
      (delete_backward_char c6State).1.buffer.lines =
        c6State.buffer.lines.take (c6State.buffer.cursor.line - 1) ++
          (c6State.buffer.lines.getD (c6State.buffer.cursor.line - 1) [] ++
            curLine c6State) ::
            c6State.buffer.lines.drop (c6State.buffer.cursor.line + 1)) :=
  ⟨⟨by decide, by decide, by decide⟩,
    (c6_delete_backward_char c6State (by decide)).2.1 (by decide) (by decide)⟩

/-- C7: `next_screen` with `scroll + offset ≥ lines_count` (where
`offset = window_lines − 1 − CONTEXT_LINES`) reports "End of buffer" as an
`Err` and leaves the scroll origin and the whole current buffer (cursor
included) unchanged; with `scroll + offset < lines_count` it sets both the
scroll origin and the cursor line to `scroll + offset` and returns `Ok`. -/
theorem c7_next_screen (s : EditorState) (_hw : 3 ≤ s.window_lines) :
    (linesCount s ≤ s.scroll_line + (s.window_lines - 1 - CONTEXT_LINES) →
      (next_screen s).2 = CmdRes.err ∧
      (next_screen s).1.minibuf = "End of buffer" ∧
      (next_screen s).1.scroll_line = s.scroll_line ∧
      (next_screen s).1.buffer = s.buffer) ∧
    (s.scroll_line + (s.window_lines - 1 - CONTEXT_LINES) < linesCount s →
      (next_screen s).2 = CmdRes.ok ∧
      (next_screen s).1.scroll_line =
        s.scroll_line + (s.window_lines - 1 - CONTEXT_LINES) ∧
      (next_screen s).1.buffer.cursor.line =
        s.scroll_line + (s.window_lines - 1 - CONTEXT_LINES) ∧
      (next_screen s).1.buffer.cursor.column = s.buffer.cursor.column ∧
      (next_screen s).1.buffer.lines = s.buffer.lines) := by
  constructor
  · intro hge
    unfold next_screen
    dsimp only
    rw [if_neg (by omega)]
    exact ⟨rfl, rfl, rfl, rfl⟩
  · intro hlt
    unfold next_screen
    dsimp only
    rw [if_pos hlt]
    exact ⟨rfl, rfl, rfl, rfl, rfl⟩

/-- A 2-line buffer seen through a 4-row window scrolled to the top. -/
def c7State : EditorState :=
  { buffer := { lines := [['a', 'b', 'c'], []], cursor := ⟨0, 3⟩, filename := none },
    goal := ⟨none, false⟩, scroll_line := 0, window_lines := 4,
    minibuf := "", event_result := none }

/-- Witness for `c7_next_screen`: a 2-line buffer seen through a 4-row
window scrolled to the top, taking the in-range branch. -/
theorem c7_next_screen_witness :
    (3 ≤ c7State.window_lines ∧
      c7State.scroll_line + (c7State.window_lines - 1 - CONTEXT_LINES) <
        linesCount c7State) ∧
    ((next_screen c7State).2 = CmdRes.ok ∧
      (next_screen c7State).1.scroll_line =
        c7State.scroll_line + (c7State.window_lines - 1 - CONTEXT_LINES) ∧
      (next_screen c7State).1.buffer.cursor.line =
        c7State.scroll_line + (c7State.window_lines - 1 - CONTEXT_LINES) ∧
      (next_screen c7State).1.buffer.cursor.column =
        c7State.buffer.cursor.column ∧
      (next_screen c7State).1.buffer.lines = c7State.buffer.lines) :=
  ⟨⟨by decide, by decide⟩, (c7_next_screen c7State (by decide)).2 (by decide)⟩

lemma position_eq_none {p : Char → Bool} {l : Line}
    (h : ∀ c ∈ l, p c = false) : position p l = none := by
  induction l with
  | nil => rfl
  | cons c rest ih =>
    have hc := h c (by simp)
    simp only [position, hc, Bool.false_eq_true, if_false]
    rw [ih (fun x hx => h x (by simp [hx]))]
    rfl

/-- An all-whitespace line ("   ") with the cursor at column 1. -/
def c8State : EditorState :=
  { buffer := { lines := [[' ', ' ', ' ']], cursor := ⟨0, 1⟩, filename := none },
    goal := ⟨none, false⟩, scroll_line := 0, window_lines := 10,
    minibuf := "", event_result := none }

/-- C8 as stated is false: on an all-whitespace line (every character
whitespace) with the column below the line length, `indent_line` leaves the
column unchanged instead of moving it to the line length — the source's
`get_line_indentation` falls back to 0, not to the line length, when no
non-whitespace character exists. -/
theorem c8_counterexample :
    (∀ c ∈ curLine c8State, isRustWhitespace c = true) ∧
    c8State.buffer.cursor.column < (curLine c8State).length ∧
    (indent_line c8State).1.buffer.cursor.column ≠ (curLine c8State).length := by
  decide

/-- C8 (amended): with leading indent defined as the position of the first
non-whitespace character of the line, or 0 (not the line length) if the
line is all whitespace, `indent_line` moves the cursor column to the
leading indent when the column is smaller and leaves it unchanged
otherwise; in particular on an all-whitespace line the indent is 0 and the
command never moves the cursor. -/
theorem c8_indent_line (s : EditorState) :
    (s.buffer.cursor.column < get_line_indentation (curLine s) →
      indent_line s =
        (setCursor s s.buffer.cursor.line (get_line_indentation (curLine s)),
          CmdRes.ok)) ∧
    (get_line_indentation (curLine s) ≤ s.buffer.cursor.column →
      indent_line s = (s, CmdRes.ok)) ∧
    ((∀ c ∈ curLine s, isRustWhitespace c = true) →
      get_line_indentation (curLine s) = 0) := by
  refine ⟨?_, ?_, ?_⟩
  · intro hc
    unfold indent_line
    dsimp only
    rw [if_pos hc]
  · intro hc
    unfold indent_line
    dsimp only
    rw [if_neg (by omega)]
  · intro hws
    unfold get_line_indentation
    rw [position_eq_none (fun c hc => by simp [hws c hc])]
    rfl

/-- Witness for `c8_indent_line` on the all-whitespace line state, taking
the no-move branch. -/
theorem c8_indent_line_witness :
    (get_line_indentation (curLine c8State) ≤ c8State.buffer.cursor.column ∧
      (∀ c ∈ curLine c8State, isRustWhitespace c = true)) ∧
    (indent_line c8State = (c8State, CmdRes.ok) ∧
      get_line_indentation (curLine c8State) = 0) :=
  ⟨⟨by decide, by decide⟩,
    (c8_indent_line c8State).2.1 (by decide),
    (c8_indent_line c8State).2.2 (by decide)⟩

/-- A 5-line buffer, scrolled to line 1, in a window showing 4 text rows,
cursor on the last line: the last visible line `1 + 4 − 1 = 4` equals the
last buffer line index but is below `lines_count = 5`. -/
def c9State : EditorState :=
  { buffer := { lines := [['a'], ['b'], ['c'], ['d'], ['e']], cursor := ⟨4, 0⟩,
                filename := none },
    goal := ⟨none, false⟩, scroll_line := 1, window_lines := 4,
    minibuf := "", event_result := none }

/-- C9 as stated is false: with the window's last visible line equal to the
last buffer line index (`lines_count − 1`) and a non-zero scroll, the
modeline shows the percentage ("100%"), not "Bot" — the source compares the
last visible line against `lines_count`, not `lines_count − 1`. -/
theorem c9_counterexample :
    c9State.scroll_line ≠ 0 ∧
    linesCount c9State - 1 ≤
      last_visible_line c9State.scroll_line c9State.window_lines ∧
    buffer_progress c9State ≠ "Bot" := by
  decide

lemma repr_percent_ne_bot (n : Nat) : Nat.repr n ++ "%" ≠ "Bot" := by
  intro h
  have hdata : (Nat.repr n).data ++ ['%'] = ['B', 'o', 't'] := by
    have := congrArg String.data h
    simpa using this
  have hlast := congrArg List.getLast? hdata
  rw [List.getLast?_concat] at hlast
  exact absurd hlast (by decide)

/-- C9 (amended): the modeline progress string is "Top" exactly when the
scroll origin is 0; otherwise it is "Bot" exactly when the window's last
visible line (`scroll_line + window_lines − 1`) is at least `lines_count`
(one line past the last buffer line index); and otherwise it is
`100*(cursor.line+1)/lines_count` followed by "%". -/
theorem c9_modeline_progress (s : EditorState) :
    (s.scroll_line = 0 → buffer_progress s = "Top") ∧
    (s.scroll_line ≠ 0 →
      (buffer_progress s = "Bot" ↔
        linesCount s ≤ last_visible_line s.scroll_line s.window_lines)) ∧
    (s.scroll_line ≠ 0 →
      last_visible_line s.scroll_line s.window_lines < linesCount s →
      buffer_progress s =
        Nat.repr (100 * (s.buffer.cursor.line + 1) / linesCount s) ++ "%") := by
  refine ⟨?_, ?_, ?_⟩
  · intro h0
    unfold buffer_progress
    rw [if_pos h0]
  · intro h0
    unfold buffer_progress
    rw [if_neg h0]
    split_ifs with hb
    · exact ⟨fun _ => hb, fun _ => rfl⟩
    · constructor
      · intro hc
        exact absurd hc (repr_percent_ne_bot _)
      · intro hc
        exact absurd hc hb
  · intro h0 hlt
    unfold buffer_progress
    rw [if_neg h0, if_neg (by omega)]

/-- Witness for `c9_modeline_progress` at the concrete state `c9State`,
taking the percentage branch. -/
theorem c9_modeline_progress_witness :
    (c9State.scroll_line ≠ 0 ∧
      last_visible_line c9State.scroll_line c9State.window_lines <
        linesCount c9State) ∧
    ((buffer_progress c9State = "Bot" ↔
        linesCount c9State ≤
          last_visible_line c9State.scroll_line c9State.window_lines) ∧
      buffer_progress c9State =
        Nat.repr (100 * (c9State.buffer.cursor.line + 1) / linesCount c9State) ++
          "%") :=
  ⟨⟨by decide, by decide⟩,
    (c9_modeline_progress c9State).2.1 (by decide),
    (c9_modeline_progress c9State).2.2 (by decide) (by decide)⟩

/-- C4 is a code bug: the `Display` implementation adds `0x60` to the key
code unconditionally (the source computes `'a' as u32 & !0x1f`, i.e.
`0x60`, and adds it for every key, not only control codes), so the plain
key 'a' (code 97, no modifiers) formats as "Á" (code 97 + 96 = 193), a
two-byte UTF-8 string that `Key::parse` rejects: the round-trip
`parse(format(k)) = Some(k)` promised by the specification fails for every
non-control key. -/
theorem c4_parse_format_bug :
    Key.format { meta := false, code := 97 } = ['Á'] ∧
    Key.parse (Key.format { meta := false, code := 97 }) = none ∧
    Key.parse (Key.format { meta := false, code := 1 }) =
      some { meta := false, code := 1 } := by
  decide

end Rile
